import Mathlib

/-!
Verification of the calorie-tracker backend (`src/backend/backend.js`).

The backend is three Express handlers over a MongoDB collection of per-day
records.  We embed the relevant JavaScript semantics (truthiness, `Number`
coercion of request-body values, `isNaN`), the document store as a list of
records with Mongo's `findOneAndUpdate` (filter on `date`, update, `upsert`
and `new: true`), and the three route handlers as pure functions from the
request body and store state to an HTTP result and the new store state.

Numbers are modelled as `Int`: every value appearing in the claims is an
integer, and the string-to-number coercion is modelled on integer literals
(optional sign, decimal digits, surrounding whitespace), which agrees with
JavaScript `Number()` on all inputs considered here.
-/

set_option autoImplicit false

namespace CalorieTracker

/-- A JSON value as it arrives in a parsed request body, restricted to the
shapes the handlers inspect: a missing field destructures to `undefined`,
and present fields are numbers or strings. -/
inductive JSValue where
  | undefined
  | num (n : Int)
  | str (s : String)
deriving DecidableEq, Repr

/-- JavaScript truthiness, as used by the `!calories || !protein || !date`
checks: `undefined` is falsy, a number is falsy iff it is `0`, a string is
falsy iff it is empty. -/
def truthy : JSValue → Bool
  | .undefined => false
  | .num n => n != 0
  | .str s => s != ""

/-- A whitespace character, for the trimming `Number()` performs. -/
def isWhite (c : Char) : Bool :=
  c = ' ' || c = '\t' || c = '\n' || c = '\r'

/-- Strip whitespace from both ends of a character list. -/
def trimChars (l : List Char) : List Char :=
  (((l.dropWhile isWhite).reverse.dropWhile isWhite).reverse)

/-- Read a nonempty run of decimal digits; `none` on a non-digit or on an
empty run. -/
def readDigits (acc : Nat) : List Char → Option Nat
  | [] => some acc
  | c :: cs => if c.isDigit then readDigits (acc * 10 + (c.toNat - 48)) cs else none

/-- Digits of a numeric literal: `none` when empty or not all digits. -/
def digitsValue : List Char → Option Nat
  | [] => none
  | c :: cs => readDigits 0 (c :: cs)

/-- JavaScript `Number()` applied to a string: surrounding whitespace is
trimmed, the empty string coerces to `0`, an optionally signed run of
decimal digits coerces to its value, anything else (such as
`"2024-01-15"`) is `NaN`, modelled as `none`. -/
def jsStringToNumber (s : String) : Option Int :=
  match trimChars s.data with
  | [] => some 0
  | '-' :: cs => (digitsValue cs).map (fun n => -(n : Int))
  | '+' :: cs => (digitsValue cs).map (fun n => (n : Int))
  | cs => (digitsValue cs).map (fun n => (n : Int))

/-- JavaScript `Number()` coercion of a request-body value; `none` is `NaN`.
`Number(undefined)` is `NaN`. -/
def jsToNumber : JSValue → Option Int
  | .undefined => none
  | .num n => some n
  | .str s => jsStringToNumber s

/-- The global `isNaN`: coerce with `Number()` and test for `NaN`. -/
def jsIsNaN (v : JSValue) : Bool :=
  (jsToNumber v).isNone

/-- A document of the `Day` collection (`daySchema`): a `date` key (the
value the client sent, stored as-is) and the two numeric accumulators. -/
structure Day where
  date : JSValue
  totalCalories : Int
  totalProtein : Int
deriving DecidableEq, Repr

/-- The document store: the `Day` collection in insertion order. -/
abbrev Store := List Day

/-- Mongo `findOneAndUpdate` with filter `{date: d}` and options
`{new: true, upsert: true, setDefaultsOnInsert: true}`: the first document
whose `date` equals `d` is replaced by `update` of it and returned;
if none matches, `onInsert` is appended and returned. -/
def findOneAndUpdate (d : JSValue) (update : Day → Day) (onInsert : Day) :
    Store → Day × Store
  | [] => (onInsert, [onInsert])
  | r :: rs =>
    if r.date = d then
      (update r, update r :: rs)
    else
      let res := findOneAndUpdate d update onInsert rs
      (res.1, r :: res.2)

/-- An HTTP response as produced by the handlers: a single `Day` body, a
list body, or an error body `{message: ...}`, each with its status code. -/
inductive ApiResult where
  | day (status : Nat) (body : Day)
  | days (status : Nat) (body : List Day)
  | err (status : Nat) (message : String)
deriving DecidableEq, Repr

/-- The rejection condition of `POST /api/meals`:
`!calories || !protein || !date || isNaN(calories) || isNaN(protein) || isNaN(date)`. -/
def mealInvalid (calories protein date : JSValue) : Bool :=
  !truthy calories || !truthy protein || !truthy date ||
    jsIsNaN calories || jsIsNaN protein || jsIsNaN date

/-- The `$inc` update of `POST /api/meals`: add the coerced calories and
protein to the accumulators, leaving the `date` key untouched. -/
def mealUpdate (c p : Int) (r : Day) : Day :=
  { r with totalCalories := r.totalCalories + c, totalProtein := r.totalProtein + p }

/-- The update of `PUT /api/days/reset`: set both accumulators to `0`,
leaving the `date` key untouched. -/
def resetUpdate (r : Day) : Day :=
  { r with totalCalories := 0, totalProtein := 0 }

/-- Handler of `POST /api/meals`: validate, then
`Day.findOneAndUpdate({date}, {$inc: {totalCalories: Number(calories),
totalProtein: Number(protein)}}, {new: true, upsert: true,
setDefaultsOnInsert: true})` and respond `200` with the updated document.
On an insert the defaults `0` are applied before the increments, so the new
document carries exactly the increments. -/
def postMeals (calories protein date : JSValue) (store : Store) :
    ApiResult × Store :=
  if mealInvalid calories protein date then
    (.err 400 "Invalid input. Please provide numeric values for calories and protein.",
     store)
  else
    let c := (jsToNumber calories).getD 0
    let p := (jsToNumber protein).getD 0
    let res := findOneAndUpdate date (mealUpdate c p) ⟨date, c, p⟩ store
    (.day 200 res.1, res.2)

/-- The rejection condition of `PUT /api/days/reset`: `!date || isNaN(date)`. -/
def resetInvalid (date : JSValue) : Bool :=
  !truthy date || jsIsNaN date

/-- Handler of `PUT /api/days/reset`: validate, then
`Day.findOneAndUpdate({date}, {totalCalories: 0, totalProtein: 0},
{new: true, upsert: true, setDefaultsOnInsert: true})` and respond with the
zeroed document (`res.json`, status `200`). -/
def putDaysReset (date : JSValue) (store : Store) : ApiResult × Store :=
  if resetInvalid date then
    (.err 400 "Invalid input. Please provide a valid date.", store)
  else
    let res := findOneAndUpdate date resetUpdate ⟨date, 0, 0⟩ store
    (.day 200 res.1, res.2)

/-- Lexicographic comparison of character lists by code point, the order
BSON uses on (ASCII) string keys. -/
def charListLe : List Char → List Char → Bool
  | [], _ => true
  | _ :: _, [] => false
  | a :: as, b :: bs =>
    if a.toNat < b.toNat then true
    else if b.toNat < a.toNat then false
    else charListLe as bs

/-- BSON comparison of stored `date` keys, as used by `sort({date: -1})`:
missing/undefined sorts before numbers, numbers before strings, numbers by
value and strings lexicographically. -/
def bsonLe : JSValue → JSValue → Bool
  | .undefined, _ => true
  | .num _, .undefined => false
  | .num m, .num n => decide (m ≤ n)
  | .num _, .str _ => true
  | .str _, .undefined => false
  | .str _, .num _ => false
  | .str s, .str t => charListLe s.data t.data

/-- The comparator realising `sort({date: -1})`: document `a` comes before
`b` when `b.date ≤ a.date` in BSON order. -/
def dateDesc (a b : Day) : Prop :=
  bsonLe b.date a.date = true

instance : DecidableRel dateDesc :=
  fun a b => inferInstanceAs (Decidable (bsonLe b.date a.date = true))

/-- Handler of `GET /api/days`: `Day.find().sort({date: -1})`, responded
with status `200`; the store is not modified. -/
def getDays (store : Store) : ApiResult × Store :=
  (.days 200 (store.insertionSort dateDesc), store)

/-- One API operation, identified by its route and request body. -/
inductive Op where
  | list
  | meal (calories protein date : JSValue)
  | reset (date : JSValue)
deriving DecidableEq, Repr

/-- The store after one operation. -/
def applyOp (s : Store) : Op → Store
  | .list => (getDays s).2
  | .meal c p d => (postMeals c p d s).2
  | .reset d => (putDaysReset d s).2

/-- The store after a sequence of operations. -/
def applyOps (s : Store) : List Op → Store
  | [] => s
  | o :: os => applyOps (applyOp s o) os

/-- How many documents of the store carry the date key `d`. -/
def countDate (d : JSValue) (s : Store) : Nat :=
  s.countP (fun r => decide (r.date = d))

/-- The accumulator pair of the first document for date `d`, `(0, 0)` when
no document for `d` exists. -/
def curTotals (d : JSValue) (s : Store) : Int × Int :=
  match s.find? (fun r => decide (r.date = d)) with
  | some r => (r.totalCalories, r.totalProtein)
  | none => (0, 0)

/-- The store after a sequence of `POST /api/meals` calls for the date `d`,
with bodies `(calories, protein)` drawn from `l` in order. -/
def foldMeals (d : JSValue) (l : List (JSValue × JSValue)) (s : Store) : Store :=
  l.foldl (fun s cp => (postMeals cp.1 cp.2 d s).2) s

/-- The calorie increment a meal body contributes: `Number(calories)`. -/
def mealCal (cp : JSValue × JSValue) : Int :=
  (jsToNumber cp.1).getD 0

/-- The protein increment a meal body contributes: `Number(protein)`. -/
def mealProt (cp : JSValue × JSValue) : Int :=
  (jsToNumber cp.2).getD 0

/-- An operation whose coerced increments are non-negative (vacuously true
for `list` and `reset`). -/
def opNonneg : Op → Bool
  | .meal c p _ => decide (0 ≤ (jsToNumber c).getD 0) && decide (0 ≤ (jsToNumber p).getD 0)
  | _ => true

/-- Both accumulators of a document are non-negative. -/
def dayNonneg (r : Day) : Bool :=
  decide (0 ≤ r.totalCalories) && decide (0 ≤ r.totalProtein)

/-! ### Helper lemmas about the store primitive -/

theorem countDate_nil (d : JSValue) : countDate d [] = 0 := rfl

theorem countDate_cons (d : JSValue) (r : Day) (s : Store) :
    countDate d (r :: s) = countDate d s + (if r.date = d then 1 else 0) := by
  simp [countDate, List.countP_cons]

theorem findOneAndUpdate_countDate (d d' : JSValue) (u : Day → Day) (i : Day)
    (hi : i.date = d) (hu : ∀ r, (u r).date = r.date) (s : Store) :
    countDate d' (findOneAndUpdate d u i s).2 =
      if d' = d then max 1 (countDate d' s) else countDate d' s := by
  induction s with
  | nil =>
    by_cases h : d' = d
    · subst h
      simp [findOneAndUpdate, countDate_cons, countDate_nil, hi]
    · have hid : ¬ i.date = d' := fun hh => h (by rw [← hh, hi])
      simp [findOneAndUpdate, countDate_cons, countDate_nil, hid, h]
  | cons r rs ih =>
    by_cases hr : r.date = d
    · by_cases h : d' = d
      · subst h
        simp [findOneAndUpdate, hr, countDate_cons, hu]
      · have hrd : ¬ r.date = d' := fun hh => h (by rw [← hh, hr])
        simp [findOneAndUpdate, hr, countDate_cons, hu, h, hrd]
    · by_cases h : d' = d
      · subst h
        simp [findOneAndUpdate, hr, countDate_cons, ih]
      · simp [findOneAndUpdate, hr, countDate_cons, ih, h]

theorem mem_findOneAndUpdate_snd (d : JSValue) (u : Day → Day) (i : Day) (s : Store) :
    ∀ x ∈ (findOneAndUpdate d u i s).2, x ∈ s ∨ (∃ r, r ∈ s ∧ x = u r) ∨ x = i := by
  induction s with
  | nil =>
    intro x hx
    simp [findOneAndUpdate] at hx
    exact Or.inr (Or.inr hx)
  | cons r rs ih =>
    intro x hx
    by_cases hr : r.date = d
    · simp [findOneAndUpdate, hr] at hx
      rcases hx with h | h
      · exact Or.inr (Or.inl ⟨r, List.mem_cons_self r rs, h⟩)
      · exact Or.inl (List.mem_cons_of_mem r h)
    · simp only [findOneAndUpdate, hr, ite_false, List.mem_cons] at hx
      rcases hx with h | h
      · exact Or.inl (h ▸ List.mem_cons_self r rs)
      · rcases ih x h with h1 | ⟨r', hr', h2⟩ | h3
        · exact Or.inl (List.mem_cons_of_mem r h1)
        · exact Or.inr (Or.inl ⟨r', List.mem_cons_of_mem r hr', h2⟩)
        · exact Or.inr (Or.inr h3)

theorem findOneAndUpdate_eq_map_of_nodup (d : JSValue) (u : Day → Day) (i : Day)
    (s : Store) (C P : Int)
    (hmem : (⟨d, C, P⟩ : Day) ∈ s) (hnd : (s.map Day.date).Nodup) :
    findOneAndUpdate d u i s =
      (u ⟨d, C, P⟩, s.map (fun r => if r.date = d then u ⟨d, C, P⟩ else r)) := by
  induction s with
  | nil => cases hmem
  | cons r rs ih =>
    simp only [List.map_cons, List.nodup_cons] at hnd
    rcases List.mem_cons.1 hmem with heq | hmem'
    · have hr : r.date = d := by rw [← heq]
      have htail : ∀ x ∈ rs, (if x.date = d then u ⟨d, C, P⟩ else x) = x := by
        intro x hx
        refine if_neg (fun hxd => hnd.1 ?_)
        rw [hr, ← hxd]
        exact List.mem_map_of_mem Day.date hx
      have hmap : rs.map (fun r => if r.date = d then u ⟨d, C, P⟩ else r) = rs :=
        (List.map_congr_left htail).trans (List.map_id rs)
      simp [findOneAndUpdate, hr, ← heq, hmap]
    · have hrd : ¬ r.date = d := by
        intro hh
        exact hnd.1 (hh ▸ List.mem_map_of_mem Day.date hmem')
      simp [findOneAndUpdate, hrd, ih hmem' hnd.2]

theorem curTotals_cons_pos (d : JSValue) (r : Day) (s : Store) (h : r.date = d) :
    curTotals d (r :: s) = (r.totalCalories, r.totalProtein) := by
  simp [curTotals, List.find?, h]

theorem curTotals_cons_neg (d : JSValue) (r : Day) (s : Store) (h : ¬ r.date = d) :
    curTotals d (r :: s) = curTotals d s := by
  simp [curTotals, List.find?, h]

theorem curTotals_findOneAndUpdate_meal (d : JSValue) (c p : Int) (s : Store) :
    curTotals d (findOneAndUpdate d (mealUpdate c p) ⟨d, c, p⟩ s).2 =
      ((curTotals d s).1 + c, (curTotals d s).2 + p) := by
  induction s with
  | nil =>
    simp [findOneAndUpdate, curTotals, List.find?, mealUpdate]
  | cons r rs ih =>
    by_cases hr : r.date = d
    · simp only [findOneAndUpdate, hr, ite_true]
      rw [curTotals_cons_pos d _ rs (by simp [mealUpdate, hr]),
        curTotals_cons_pos d r rs hr]
      simp [mealUpdate]
    · simp only [findOneAndUpdate, hr, ite_false]
      rw [curTotals_cons_neg d r _ hr, curTotals_cons_neg d r rs hr]
      exact ih

theorem findOneAndUpdate_reset_fst (d : JSValue) (s : Store) :
    (findOneAndUpdate d resetUpdate ⟨d, 0, 0⟩ s).1 = ⟨d, 0, 0⟩ := by
  induction s with
  | nil => rfl
  | cons r rs ih =>
    by_cases hr : r.date = d
    · simp [findOneAndUpdate, hr, resetUpdate]
    · simp [findOneAndUpdate, hr, ih]

theorem findOneAndUpdate_reset_idem (d : JSValue) (s : Store) :
    findOneAndUpdate d resetUpdate ⟨d, 0, 0⟩ (findOneAndUpdate d resetUpdate ⟨d, 0, 0⟩ s).2 =
      ((findOneAndUpdate d resetUpdate ⟨d, 0, 0⟩ s).1,
       (findOneAndUpdate d resetUpdate ⟨d, 0, 0⟩ s).2) := by
  induction s with
  | nil => simp [findOneAndUpdate, resetUpdate]
  | cons r rs ih =>
    by_cases hr : r.date = d
    · simp [findOneAndUpdate, hr, resetUpdate]
    · simp [findOneAndUpdate, hr, ih]

theorem applyOp_countDate_le (s : Store) (o : Op)
    (h : ∀ d', countDate d' s ≤ 1) :
    ∀ d', countDate d' (applyOp s o) ≤ 1 := by
  intro d'
  cases o with
  | list => exact h d'
  | meal c p d =>
    by_cases hv : mealInvalid c p d = true
    · simp [applyOp, postMeals, hv]
      exact h d'
    · have hcount := findOneAndUpdate_countDate d d'
        (mealUpdate ((jsToNumber c).getD 0) ((jsToNumber p).getD 0))
        ⟨d, (jsToNumber c).getD 0, (jsToNumber p).getD 0⟩ rfl (fun _ => rfl) s
      simp only [applyOp, postMeals, hv, ite_false, Bool.false_eq_true]
      rw [hcount]
      have := h d'
      split <;> omega
  | reset d =>
    by_cases hv : resetInvalid d = true
    · simp [applyOp, putDaysReset, hv]
      exact h d'
    · have hcount := findOneAndUpdate_countDate d d' resetUpdate
        ⟨d, 0, 0⟩ rfl (fun _ => rfl) s
      simp only [applyOp, putDaysReset, hv, ite_false, Bool.false_eq_true]
      rw [hcount]
      have := h d'
      split <;> omega

theorem applyOps_countDate_le (ops : List Op) (s : Store)
    (h : ∀ d', countDate d' s ≤ 1) :
    ∀ d', countDate d' (applyOps s ops) ≤ 1 := by
  induction ops generalizing s with
  | nil => exact h
  | cons o os ih => exact ih (applyOp s o) (applyOp_countDate_le s o h)

theorem nodup_dates_countDate_le_one (s : Store) (h : (s.map Day.date).Nodup)
    (d : JSValue) : countDate d s ≤ 1 := by
  induction s with
  | nil => simp [countDate_nil]
  | cons r rs ih =>
    simp only [List.map_cons, List.nodup_cons] at h
    rw [countDate_cons]
    by_cases hr : r.date = d
    · have hz : countDate d rs = 0 := by
        rw [countDate, List.countP_eq_zero]
        intro x hx
        simp only [decide_eq_true_eq]
        intro hxd
        exact h.1 (hr ▸ hxd ▸ List.mem_map_of_mem Day.date hx)
      simp [hz, hr]
    · simp [hr, ih h.2]

theorem applyOp_nonneg (s : Store) (o : Op) (ho : opNonneg o = true)
    (hs : ∀ r ∈ s, dayNonneg r = true) :
    ∀ r ∈ applyOp s o, dayNonneg r = true := by
  cases o with
  | list => exact hs
  | meal c p d =>
    intro x hx
    by_cases hv : mealInvalid c p d = true
    · simp [applyOp, postMeals, hv] at hx
      exact hs x hx
    · simp only [applyOp, postMeals, hv, ite_false, Bool.false_eq_true] at hx
      have ho' : 0 ≤ (jsToNumber c).getD 0 ∧ 0 ≤ (jsToNumber p).getD 0 := by
        simpa [opNonneg] using ho
      rcases mem_findOneAndUpdate_snd _ _ _ _ x hx with h1 | ⟨r, hr, h2⟩ | h3
      · exact hs x h1
      · have := hs r hr
        simp only [dayNonneg, Bool.and_eq_true, decide_eq_true_eq] at this ⊢
        subst h2
        simp only [mealUpdate]
        omega
      · subst h3
        simp only [dayNonneg, Bool.and_eq_true, decide_eq_true_eq]
        exact ho'
  | reset d =>
    intro x hx
    by_cases hv : resetInvalid d = true
    · simp [applyOp, putDaysReset, hv] at hx
      exact hs x hx
    · simp only [applyOp, putDaysReset, hv, ite_false, Bool.false_eq_true] at hx
      rcases mem_findOneAndUpdate_snd _ _ _ _ x hx with h1 | ⟨r, hr, h2⟩ | h3
      · exact hs x h1
      · subst h2
        simp [dayNonneg, resetUpdate]
      · subst h3
        simp [dayNonneg]

theorem applyOps_nonneg (ops : List Op) (s : Store)
    (ho : ∀ o ∈ ops, opNonneg o = true)
    (hs : ∀ r ∈ s, dayNonneg r = true) :
    ∀ r ∈ applyOps s ops, dayNonneg r = true := by
  induction ops generalizing s with
  | nil => exact hs
  | cons o os ih =>
    exact ih (applyOp s o)
      (fun o' ho' => ho o' (List.mem_cons_of_mem o ho'))
      (applyOp_nonneg s o (ho o (List.mem_cons_self o os)) hs)

theorem foldMeals_curTotals (d : JSValue) (l : List (JSValue × JSValue)) (s : Store)
    (hval : ∀ cp ∈ l, mealInvalid cp.1 cp.2 d = false) :
    curTotals d (foldMeals d l s) =
      ((curTotals d s).1 + (l.map mealCal).sum,
       (curTotals d s).2 + (l.map mealProt).sum) := by
  induction l generalizing s with
  | nil => simp [foldMeals]
  | cons cp l ih =>
    have hcp : mealInvalid cp.1 cp.2 d = false := hval cp (List.mem_cons_self cp l)
    have hrest : ∀ x ∈ l, mealInvalid x.1 x.2 d = false :=
      fun x hx => hval x (List.mem_cons_of_mem cp hx)
    have hstep : (postMeals cp.1 cp.2 d s).2 =
        (findOneAndUpdate d (mealUpdate (mealCal cp) (mealProt cp))
          ⟨d, mealCal cp, mealProt cp⟩ s).2 := by
      simp [postMeals, hcp, mealCal, mealProt]
    have hfold : foldMeals d (cp :: l) s = foldMeals d l ((postMeals cp.1 cp.2 d s).2) := by
      simp [foldMeals]
    rw [hfold, ih _ hrest, hstep, curTotals_findOneAndUpdate_meal]
    simp only [List.map_cons, List.sum_cons, Prod.mk.injEq]
    constructor <;> ring

theorem charListLe_total (as bs : List Char) :
    charListLe as bs = true ∨ charListLe bs as = true := by
  induction as generalizing bs with
  | nil => exact Or.inl rfl
  | cons a as ih =>
    cases bs with
    | nil => exact Or.inr rfl
    | cons b bs =>
      by_cases h1 : a.toNat < b.toNat
      · exact Or.inl (by simp [charListLe, h1])
      · by_cases h2 : b.toNat < a.toNat
        · exact Or.inr (by simp [charListLe, h2])
        · rcases ih bs with h | h
          · exact Or.inl (by simp [charListLe, h1, h2, h])
          · exact Or.inr (by simp [charListLe, h1, h2, h])

theorem charListLe_trans (as bs cs : List Char)
    (h1 : charListLe as bs = true) (h2 : charListLe bs cs = true) :
    charListLe as cs = true := by
  induction as generalizing bs cs with
  | nil => rfl
  | cons a as ih =>
    cases bs with
    | nil => simp [charListLe] at h1
    | cons b bs =>
      cases cs with
      | nil => simp [charListLe] at h2
      | cons c cs =>
        simp only [charListLe] at h1 h2 ⊢
        split_ifs at h1 h2 ⊢ with hab hba hbc hcb hac hca
        all_goals first
          | rfl
          | omega
          | (exact ih bs cs h1 h2)

theorem bsonLe_total (x y : JSValue) : bsonLe x y = true ∨ bsonLe y x = true := by
  cases x <;> cases y <;> simp [bsonLe] <;> first
    | omega
    | exact charListLe_total _ _

theorem bsonLe_trans (x y z : JSValue)
    (h1 : bsonLe x y = true) (h2 : bsonLe y z = true) : bsonLe x z = true := by
  cases x <;> cases y <;> cases z <;> simp [bsonLe] at h1 h2 ⊢ <;> first
    | omega
    | exact charListLe_trans _ _ _ h1 h2

instance : IsTotal Day dateDesc :=
  ⟨fun a b => bsonLe_total b.date a.date⟩

instance : IsTrans Day dateDesc :=
  ⟨fun a b c h1 h2 => bsonLe_trans c.date b.date a.date h2 h1⟩

/-! ### Claim theorems -/

/-- C1: the claim states that `POST /api/meals` with body
`{calories: 500, protein: 30, date: "2024-01-15"}` passes validation and
returns `200` with the record `{date: "2024-01-15", totalCalories: 500,
totalProtein: 30}`, the numeric-coercibility check not rejecting
well-formed date strings.  The code does the opposite: `Number("2024-01-15")`
is `NaN`, so `isNaN(date)` is `true`, validation fails, and the handler
answers `400` without touching the store.  This theorem records the code's
actual behaviour at the claimed input. -/
theorem c1_add_meal_rejects_well_formed_date :
    jsIsNaN (.str "2024-01-15") = true ∧
    postMeals (.num 500) (.num 30) (.str "2024-01-15") [] =
      (.err 400 "Invalid input. Please provide numeric values for calories and protein.",
       []) := by
  decide

/-- C2: the claim states that `PUT /api/days/reset` succeeds for any
present date string, in particular `"2024-01-15"`, returning the zeroed
record.  The code rejects every date string that does not coerce to a
number: `isNaN("2024-01-15")` is `true`, so the handler answers `400` and
the store is untouched; no record is created.  This theorem records the
code's actual behaviour at the claimed input. -/
theorem c2_reset_rejects_well_formed_date :
    jsIsNaN (.str "2024-01-15") = true ∧
    putDaysReset (.str "2024-01-15") [] =
      (.err 400 "Invalid input. Please provide a valid date.", []) := by
  decide

/-- C3: on a store holding a record `⟨d, C, P⟩` (dates unique), an
Add-meal request for `d` that passes validation responds `200` with that
record incremented by the coerced calories and protein, the store maps
that record to the incremented one, and every other record is unchanged. -/
theorem c3_add_meal_increments (calories protein d : JSValue) (store : Store)
    (C P : Int)
    (hval : mealInvalid calories protein d = false)
    (hmem : (⟨d, C, P⟩ : Day) ∈ store)
    (hnd : (store.map Day.date).Nodup) :
    postMeals calories protein d store =
      (.day 200 ⟨d, C + (jsToNumber calories).getD 0, P + (jsToNumber protein).getD 0⟩,
       store.map (fun r =>
        if r.date = d
        then (⟨d, C + (jsToNumber calories).getD 0,
               P + (jsToNumber protein).getD 0⟩ : Day)
        else r)) := by
  have h1 := findOneAndUpdate_eq_map_of_nodup d
    (mealUpdate ((jsToNumber calories).getD 0) ((jsToNumber protein).getD 0))
    ⟨d, (jsToNumber calories).getD 0, (jsToNumber protein).getD 0⟩ store C P hmem hnd
  simp [postMeals, hval, h1, mealUpdate]

theorem c3_add_meal_increments_witness :
    mealInvalid (.num 200) (.num 10) (.str "20240115") = false ∧
    (⟨.str "20240115", 500, 30⟩ : Day) ∈
      ([⟨.str "20240116", 7, 7⟩, ⟨.str "20240115", 500, 30⟩] : Store) ∧
    (([⟨.str "20240116", 7, 7⟩, ⟨.str "20240115", 500, 30⟩] : Store).map Day.date).Nodup ∧
    postMeals (.num 200) (.num 10) (.str "20240115")
        [⟨.str "20240116", 7, 7⟩, ⟨.str "20240115", 500, 30⟩] =
      (.day 200 ⟨.str "20240115", 700, 40⟩,
       [⟨.str "20240116", 7, 7⟩, ⟨.str "20240115", 700, 40⟩]) :=
  ⟨by decide, by decide, by decide,
   c3_add_meal_increments (.num 200) (.num 10) (.str "20240115")
     [⟨.str "20240116", 7, 7⟩, ⟨.str "20240115", 500, 30⟩] 500 30
     (by decide) (by decide) (by decide)⟩

/-- C4: starting from a store with at most one record per date (its list
of dates has no duplicate), any sequence of List, Add-meal and Reset-day
operations leaves at most one record for every date `d`. -/
theorem c4_at_most_one_record_per_date (ops : List Op) (s : Store) (d : JSValue)
    (h : (s.map Day.date).Nodup) :
    countDate d (applyOps s ops) ≤ 1 :=
  applyOps_countDate_le ops s (nodup_dates_countDate_le_one s h) d

theorem c4_at_most_one_record_per_date_witness :
    (([⟨.str "20240115", 5, 5⟩] : Store).map Day.date).Nodup ∧
    countDate (.str "20240115")
      (applyOps [⟨.str "20240115", 5, 5⟩]
        [.meal (.num 200) (.num 20) (.str "20240115"),
         .reset (.str "20240115"),
         .meal (.num 300) (.num 30) (.str "20240116"),
         .list]) ≤ 1 :=
  ⟨by decide,
   c4_at_most_one_record_per_date
     [.meal (.num 200) (.num 20) (.str "20240115"),
      .reset (.str "20240115"),
      .meal (.num 300) (.num 30) (.str "20240116"),
      .list]
     [⟨.str "20240115", 5, 5⟩] (.str "20240115") (by decide)⟩

/-- C5, counterexample: validation does not reject negative numbers, so an
accepted Add-meal with `calories = -5` drives the accumulator below zero
on an empty store, refuting the claim that every reachable record has
non-negative totals. -/
theorem c5_negative_totals_counterexample :
    (postMeals (.num (-5)) (.num 30) (.str "20240115") []).1 =
      .day 200 ⟨.str "20240115", -5, 30⟩ ∧
    applyOps [] [.meal (.num (-5)) (.num 30) (.str "20240115")] =
      [⟨.str "20240115", -5, 30⟩] ∧
    dayNonneg ⟨.str "20240115", -5, 30⟩ = false := by
  decide

/-- C5, amended: in every store reachable from the empty store by a
sequence of operations whose Add-meal bodies all carry non-negative
coerced calories and protein, every record has non-negative accumulators.
(The unamended claim fails because validation accepts negative numbers.) -/
theorem c5_nonneg_amended (ops : List Op) (h : ops.all opNonneg = true) :
    (applyOps [] ops).all dayNonneg = true := by
  rw [List.all_eq_true]
  exact applyOps_nonneg ops []
    (fun o ho => List.all_eq_true.1 h o ho)
    (fun r hr => absurd hr (List.not_mem_nil r))

theorem c5_nonneg_amended_witness :
    ([Op.meal (.num 500) (.num 30) (.str "20240115"),
      Op.reset (.str "20240115"),
      Op.meal (.num 200) (.num 10) (.str "20240115")].all opNonneg = true) ∧
    (applyOps []
      [Op.meal (.num 500) (.num 30) (.str "20240115"),
       Op.reset (.str "20240115"),
       Op.meal (.num 200) (.num 10) (.str "20240115")]).all dayNonneg = true :=
  ⟨by decide,
   c5_nonneg_amended
     [Op.meal (.num 500) (.num 30) (.str "20240115"),
      Op.reset (.str "20240115"),
      Op.meal (.num 200) (.num 10) (.str "20240115")] (by decide)⟩

/-- C6: a request that fails input validation is answered with status
`400` and a descriptive message, and the store is returned unchanged, for
both `POST /api/meals` and `PUT /api/days/reset`. -/
theorem c6_invalid_input_rejected_store_untouched :
    (∀ (calories protein date : JSValue) (store : Store),
        mealInvalid calories protein date = true →
          postMeals calories protein date store =
            (.err 400 "Invalid input. Please provide numeric values for calories and protein.",
             store)) ∧
    (∀ (date : JSValue) (store : Store),
        resetInvalid date = true →
          putDaysReset date store =
            (.err 400 "Invalid input. Please provide a valid date.", store)) := by
  constructor
  · intro c p d s h
    simp [postMeals, h]
  · intro d s h
    simp [putDaysReset, h]

theorem c6_invalid_input_rejected_store_untouched_witness :
    mealInvalid .undefined (.num 30) (.str "20240115") = true ∧
    postMeals .undefined (.num 30) (.str "20240115") [⟨.str "20240115", 1, 1⟩] =
      (.err 400 "Invalid input. Please provide numeric values for calories and protein.",
       [⟨.str "20240115", 1, 1⟩]) ∧
    resetInvalid .undefined = true ∧
    putDaysReset .undefined [⟨.str "20240115", 1, 1⟩] =
      (.err 400 "Invalid input. Please provide a valid date.",
       [⟨.str "20240115", 1, 1⟩]) :=
  ⟨by decide,
   c6_invalid_input_rejected_store_untouched.1 .undefined (.num 30) (.str "20240115")
     [⟨.str "20240115", 1, 1⟩] (by decide),
   by decide,
   c6_invalid_input_rejected_store_untouched.2 .undefined
     [⟨.str "20240115", 1, 1⟩] (by decide)⟩

/-- C7: Reset-day is idempotent for every date that passes validation and
every starting store: the response is the zeroed record for that date, and
running the reset a second time returns the same response and leaves the
store in the same state. -/
theorem c7_reset_idempotent (d : JSValue) (store : Store)
    (hval : resetInvalid d = false) :
    putDaysReset d store = (.day 200 ⟨d, 0, 0⟩, (putDaysReset d store).2) ∧
    putDaysReset d (putDaysReset d store).2 = putDaysReset d store := by
  have h1 := findOneAndUpdate_reset_fst d store
  have h2 := findOneAndUpdate_reset_idem d store
  constructor
  · simp [putDaysReset, hval, h1]
  · simp [putDaysReset, hval, h2, h1]

theorem c7_reset_idempotent_witness :
    resetInvalid (.str "20240115") = false ∧
    putDaysReset (.str "20240115") [⟨.str "20240115", 700, 40⟩] =
      (.day 200 ⟨.str "20240115", 0, 0⟩,
       (putDaysReset (.str "20240115") [⟨.str "20240115", 700, 40⟩]).2) ∧
    putDaysReset (.str "20240115")
        (putDaysReset (.str "20240115") [⟨.str "20240115", 700, 40⟩]).2 =
      putDaysReset (.str "20240115") [⟨.str "20240115", 700, 40⟩] :=
  ⟨by decide,
   (c7_reset_idempotent (.str "20240115") [⟨.str "20240115", 700, 40⟩] (by decide)).1,
   (c7_reset_idempotent (.str "20240115") [⟨.str "20240115", 700, 40⟩] (by decide)).2⟩

/-- C8: `GET /api/days` does not modify the store and responds `200` with
all records of the store (a permutation of it), sorted by the `date` key
in descending BSON order; no record is dropped or paginated away. -/
theorem c8_list_returns_all_sorted_desc (store : Store) :
    (getDays store).2 = store ∧
    (getDays store).1 = .days 200 (store.insertionSort dateDesc) ∧
    (store.insertionSort dateDesc).Perm store ∧
    List.Sorted dateDesc (store.insertionSort dateDesc) :=
  ⟨rfl, rfl, List.perm_insertionSort dateDesc store,
   List.sorted_insertionSort dateDesc store⟩

/-- C9: no lost updates.  Any interleaving (permutation) `l₂` of a batch
`l₁` of validated Add-meal bodies for the same date `d`, applied
sequentially from any store — each call being one atomic
`findOneAndUpdate` — leaves the record for `d` with totals equal to the
starting totals plus the sums of all coerced calorie and protein
increments of the batch. -/
theorem c9_no_lost_updates (d : JSValue) (l1 l2 : List (JSValue × JSValue))
    (s : Store)
    (hval : ∀ cp ∈ l1, mealInvalid cp.1 cp.2 d = false)
    (hperm : l1.Perm l2) :
    curTotals d (foldMeals d l2 s) =
      ((curTotals d s).1 + (l1.map mealCal).sum,
       (curTotals d s).2 + (l1.map mealProt).sum) := by
  have hval2 : ∀ cp ∈ l2, mealInvalid cp.1 cp.2 d = false :=
    fun cp h => hval cp (hperm.mem_iff.2 h)
  rw [foldMeals_curTotals d l2 s hval2,
    (hperm.map mealCal).sum_eq, (hperm.map mealProt).sum_eq]

theorem c9_no_lost_updates_witness :
    curTotals (.str "20240115")
      (foldMeals (.str "20240115")
        [((.num 300 : JSValue), (.num 10 : JSValue)),
         ((.num 200 : JSValue), (.num 20 : JSValue))] []) =
      ((curTotals (.str "20240115") []).1 +
        (([((.num 200 : JSValue), (.num 20 : JSValue)),
           ((.num 300 : JSValue), (.num 10 : JSValue))]).map mealCal).sum,
       (curTotals (.str "20240115") []).2 +
        (([((.num 200 : JSValue), (.num 20 : JSValue)),
           ((.num 300 : JSValue), (.num 10 : JSValue))]).map mealProt).sum) :=
  c9_no_lost_updates (.str "20240115")
    [((.num 200 : JSValue), (.num 20 : JSValue)),
     ((.num 300 : JSValue), (.num 10 : JSValue))]
    [((.num 300 : JSValue), (.num 10 : JSValue)),
     ((.num 200 : JSValue), (.num 20 : JSValue))]
    [] (by decide) (by decide)

/-- C10, counterexample: with `calories = "0"` (a non-empty numeric
string), `protein = "30"` and a date that passes validation, the
string-typed request is accepted (the string `"0"` is truthy) and creates
a record, while the same request with the number `0` is falsy and is
rejected with `400`; the two requests do not produce the same resulting
record, refuting the claim as universally stated. -/
theorem c10_string_numbers_counterexample :
    postMeals (.str "0") (.str "30") (.str "20240115") [] =
      (.day 200 ⟨.str "20240115", 0, 30⟩, [⟨.str "20240115", 0, 30⟩]) ∧
    postMeals (.num 0) (.num 30) (.str "20240115") [] =
      (.err 400 "Invalid input. Please provide numeric values for calories and protein.",
       []) := by
  decide

/-- C10, amended: for an Add-meal request whose date passes validation and
whose calories and protein are numeric strings coercing to nonzero values,
validation passes and the handler behaves exactly as with the
corresponding number-typed values: the increments applied are
`Number(calories)` and `Number(protein)`, and response and resulting store
coincide with the number-typed request.  (The unamended claim fails for
strings coercing to `0`, which are truthy while the number `0` is falsy.) -/
theorem c10_string_numbers_amended (s t : String) (a b : Int) (d : JSValue)
    (store : Store)
    (ha : jsStringToNumber s = some a) (ha0 : a ≠ 0)
    (hb : jsStringToNumber t = some b) (hb0 : b ≠ 0)
    (hd : truthy d = true) (hdn : jsIsNaN d = false) :
    mealInvalid (.str s) (.str t) d = false ∧
    postMeals (.str s) (.str t) d store = postMeals (.num a) (.num b) d store := by
  have hs : s ≠ "" := by
    intro h
    subst h
    rw [show jsStringToNumber "" = some 0 from rfl] at ha
    exact ha0 (Option.some.inj ha).symm
  have ht : t ≠ "" := by
    intro h
    subst h
    rw [show jsStringToNumber "" = some 0 from rfl] at hb
    exact hb0 (Option.some.inj hb).symm
  have hts : truthy (.str s) = true := by simp [truthy, hs]
  have htt : truthy (.str t) = true := by simp [truthy, ht]
  have hns : jsIsNaN (.str s) = false := by simp [jsIsNaN, jsToNumber, ha]
  have hnt : jsIsNaN (.str t) = false := by simp [jsIsNaN, jsToNumber, hb]
  have hta : truthy (.num a) = true := by simp [truthy, ha0]
  have htb : truthy (.num b) = true := by simp [truthy, hb0]
  have hna : jsIsNaN (.num a) = false := by simp [jsIsNaN, jsToNumber]
  have hnb : jsIsNaN (.num b) = false := by simp [jsIsNaN, jsToNumber]
  have hval : mealInvalid (.str s) (.str t) d = false := by
    simp [mealInvalid, hts, htt, hns, hnt, hd, hdn]
  have hvaln : mealInvalid (.num a) (.num b) d = false := by
    simp [mealInvalid, hta, htb, hna, hnb, hd, hdn]
  refine ⟨hval, ?_⟩
  simp [postMeals, hval, hvaln, jsToNumber, ha, hb]

theorem c10_string_numbers_amended_witness :
    jsStringToNumber "500" = some 500 ∧
    jsStringToNumber "30" = some 30 ∧
    truthy (.str "20240115") = true ∧
    jsIsNaN (.str "20240115") = false ∧
    mealInvalid (.str "500") (.str "30") (.str "20240115") = false ∧
    postMeals (.str "500") (.str "30") (.str "20240115") [] =
      postMeals (.num 500) (.num 30) (.str "20240115") [] :=
  ⟨by decide, by decide, by decide, by decide,
   (c10_string_numbers_amended "500" "30" 500 30 (.str "20240115") []
     (by decide) (by decide) (by decide) (by decide) (by decide) (by decide)).1,
   (c10_string_numbers_amended "500" "30" 500 30 (.str "20240115") []
     (by decide) (by decide) (by decide) (by decide) (by decide) (by decide)).2⟩

end CalorieTracker
